import Mathlib

/-!
Shallow embedding of the slog-sentry handler (package slogsentry,
src/handler.go) and proofs about its specification.

The embedding models:
  - Go error values, including the repository's SlogError composite
    (GoError with constructor slogError for SlogError values);
  - slog attribute values (SlogValue) with their String() rendering and
    the Value.Any().(error) type assertion (asError);
  - the attribute classification closure handleAttr and the mutable
    call-local state (err, slogContext, tags) it updates (ClassState);
  - SentryHandler.Handle, Enabled, WithAttrs and WithGroup.

The external collaborators (the inner slog.Handler sink and the
sentry-go hub) are modelled abstractly: the inner sink as a SinkOps
record of operations over an abstract sink-state type, and hub
resolution (sentry.GetHubFromContext / sentry.CurrentHub) as two
Option-valued inputs, per the external interface contract.  Remote
submissions are made observable as a list of captured events.
-/

namespace SlogSentry

/-- Reserved short error key, `shortErrKey` in handler.go. -/
def shortErrKey : String := "err"

/-- Reserved long error key, `longErrKey` in handler.go. -/
def longErrKey : String := "error"

/-- The marker that a key must start with to be classified as a tag,
`tagAttrPrefix` in handler.go ("tag_"). -/
def tagAttrPfx : String := "tag_"

/-- slog.TimeKey. -/
def timeKey : String := "time"

/-- slog.LevelKey. -/
def levelKey : String := "level"

/-- slog.SourceKey. -/
def sourceKey : String := "source"

/-- slog.MessageKey. -/
def messageKey : String := "msg"

/-- `slogDefaultKeys` from handler.go: the slog default keys plus the two
reserved error keys. -/
def slogDefaultKeys : List String :=
  [timeKey, levelKey, sourceKey, messageKey, shortErrKey, longErrKey]

/-- slog.LevelDebug. -/
def LevelDebug : Int := -4

/-- slog.LevelInfo. -/
def LevelInfo : Int := 0

/-- slog.LevelWarn. -/
def LevelWarn : Int := 4

/-- slog.LevelError. -/
def LevelError : Int := 8

/-- Go error values.  `base` is any external error (identified by its
Error() text, as produced e.g. by errors.New); `slogError` is this
repository's SlogError struct with fields msg and err (err may be nil,
modelled as an Option). -/
inductive GoError where
  | base (msg : String)
  | slogError (msg : String) (err : Option GoError)

/-- The Error() method of a Go error.  For `slogError` this is the
method at handler.go lines 38-47: start from msg; if err is non-nil,
append ": " when msg is non-empty, then append err.Error(). -/
def GoError.errorString : GoError → String
  | .base m => m
  | .slogError m none => m
  | .slogError m (some e) =>
      (if 0 < m.length then m ++ ": " else m) ++ e.errorString

/-- The Unwrap() method of SlogError (handler.go lines 49-51): returns
the wrapped err field unchanged.  An external base error has no Unwrap. -/
def GoError.unwrap : GoError → Option GoError
  | .base _ => none
  | .slogError _ e => e

/-- A slog attribute value.  `verr` is a value whose dynamic type
implements the error interface; `vnil` is a nil any-value (as produced
by slog.Any(key, nil)). -/
inductive SlogValue where
  | str (s : String)
  | vint (n : Int)
  | vbool (b : Bool)
  | verr (e : GoError)
  | vnil

/-- slog.Value.String(): the string rendering of a value.  An error
value renders as its Error() text, nil renders as "<nil>" (fmt
conventions). -/
def SlogValue.render : SlogValue → String
  | .str s => s
  | .vint n => toString n
  | .vbool b => if b then "true" else "false"
  | .verr e => e.errorString
  | .vnil => "<nil>"

/-- The type assertion `attr.Value.Any().(error)`: succeeds exactly when
the value is error-typed; a nil value or any non-error value fails. -/
def SlogValue.asError : SlogValue → Option GoError
  | .verr e => some e
  | _ => none

/-- slog.Attr: a key and a value. -/
structure Attr where
  key : String
  value : SlogValue

/-- strings.HasPrefix from the Go standard library: does s start with p?
Computed structurally on the character lists. -/
def strHasPfx (s p : String) : Bool :=
  p.data.isPrefixOf s.data

/-- A Go string-keyed map as an association list with unique keys;
m[k] = v overwrites the entry for k when present, else appends it.
Iteration order is irrelevant to the handler (only lookups and emptiness
are observed). -/
def mapSet : List (String × String) → String → String →
    List (String × String)
  | [], k, v => [(k, v)]
  | p :: m, k, v => if p.1 = k then (k, v) :: m else p :: mapSet m k v

/-- Map lookup m[k]. -/
def mapGet : List (String × String) → String → Option String
  | [], _ => none
  | p :: m, k => if p.1 = k then some p.2 else mapGet m k

/-- The call-local classification state of Handle: the `err` variable
and the slogContext and tags maps (handler.go lines 92-94). -/
structure ClassState where
  err : Option GoError
  slogContext : List (String × String)
  tags : List (String × String)

/-- The empty state at the start of a Handle call. -/
def initClassState : ClassState := ⟨none, [], []⟩

/-- The handleAttr closure of Handle (handler.go lines 96-108):
  1. key starts with "tag_"  → tags[key] = value.String();
  2. key not a default key   → slogContext[key] = value.String();
  3. key is "err" or "error" → err, ok = value.Any().(error); a failed
     assertion leaves err = nil and stores the rendering in slogContext;
  4. any other default key   → ignored. -/
def handleAttr (st : ClassState) (attr : Attr) : ClassState :=
  if strHasPfx attr.key tagAttrPfx then
    { st with tags := mapSet st.tags attr.key attr.value.render }
  else if ¬ slogDefaultKeys.contains attr.key then
    { st with slogContext := mapSet st.slogContext attr.key attr.value.render }
  else if attr.key = shortErrKey ∨ attr.key = longErrKey then
    match attr.value.asError with
    | some e => { st with err := some e }
    | none =>
        { st with
          err := none
          slogContext := mapSet st.slogContext attr.key attr.value.render }
  else
    st

/-- A slog.Record as Handle reads it: level, message text and the
record's own attributes in declaration order (record.Attrs iterates them
in order; the callback always returns true). -/
structure Record where
  level : Int
  message : String
  attrs : List Attr

/-- The capability set of the wrapped inner slog.Handler, over an
abstract sink-state type.  handle returns the inner sink's Handle
result (ok or an error text). -/
structure SinkOps (σ : Type) where
  handle : σ → Record → Except String Unit
  enabled : σ → Int → Bool
  withAttrs : σ → List Attr → σ
  withGroup : σ → String → σ

/-- SentryHandler (handler.go lines 54-61): the embedded inner handler,
the forwarding level list and the stored attributes. -/
structure SentryHandler (σ : Type) where
  inner : σ
  levels : List Int
  storedAttrs : List Attr

/-- NewSentryHandler (handler.go lines 65-73): storedAttrs start empty. -/
def NewSentryHandler {σ : Type} (inner : σ) (levels : List Int) :
    SentryHandler σ :=
  ⟨inner, levels, []⟩

/-- SentryHandler.Enabled: pure delegation to the inner sink. -/
def SentryHandler.Enabled {σ : Type} (ops : SinkOps σ)
    (s : SentryHandler σ) (level : Int) : Bool :=
  ops.enabled s.inner level

/-- Hub resolution (handler.go lines 84-87): take the hub from the
context; if nil, fall back to the process-wide current hub.  Both
lookups are external (sentry-go) and are modelled as Option inputs. -/
def resolveHub (ctxHub currentHub : Option Nat) : Option Nat :=
  match ctxHub with
  | some h => some h
  | none => currentHub

/-- Classification of one Handle call: fold handleAttr over the stored
attributes first (handler.go lines 110-112), then over the record's own
attributes in declaration order (lines 114-117). -/
def classifyAttrs {σ : Type} (s : SentryHandler σ) (r : Record) :
    ClassState :=
  List.foldl handleAttr (List.foldl handleAttr initClassState s.storedAttrs)
    r.attrs

/-- The scope data built inside hub.WithScope (handler.go lines
119-126): the slogContext map is attached under namespace "slog" only
when non-empty, and the tags map only when non-empty. -/
structure ScopeData where
  contexts : List (String × List (String × String))
  tags : List (String × String)

/-- Build the scope from a classification state. -/
def scopeFor (st : ClassState) : ScopeData :=
  let s1 : ScopeData := ⟨[], []⟩
  let s2 :=
    if 0 < st.slogContext.length then
      { s1 with contexts := [("slog", st.slogContext)] }
    else s1
  if 0 < st.tags.length then { s2 with tags := st.tags } else s2

/-- A remote submission: CaptureException or CaptureMessage. -/
inductive Submission where
  | exception (e : GoError)
  | message (text : String)

/-- The switch on record.Level (handler.go lines 128-133): Error level
submits CaptureException(SlogError{msg: record.Message, err: err});
Debug, Info and Warn submit CaptureMessage(record.Message); any other
level submits nothing. -/
def dispatch (level : Int) (msg : String) (err : Option GoError) :
    List Submission :=
  if level = LevelError then
    [Submission.exception (GoError.slogError msg err)]
  else if level = LevelDebug ∨ level = LevelInfo ∨ level = LevelWarn then
    [Submission.message msg]
  else
    []

/-- A remote event: the scope in force and the submission made in it. -/
structure CapturedEvent where
  scope : ScopeData
  sub : Submission

/-- The observable outcome of one Handle call: the value Handle returns,
the remote events captured, and whether the inner sink's Handle was
invoked. -/
structure HandleOutput where
  result : Except String Unit
  events : List CapturedEvent
  delegated : Bool

/-- SentryHandler.Handle (handler.go lines 82-138).  When the record's
level is in the forwarding list: resolve the hub (context first, then
the process-wide default); if neither exists, return the error
"sentry: hub is nil" at once, WITHOUT delegating to the inner sink;
otherwise classify the attributes, build a scope and dispatch by level,
then delegate.  When the level is not in the list, delegate immediately. -/
def SentryHandler.Handle {σ : Type} (ops : SinkOps σ) (s : SentryHandler σ)
    (ctxHub currentHub : Option Nat) (record : Record) : HandleOutput :=
  if s.levels.contains record.level then
    match resolveHub ctxHub currentHub with
    | none => ⟨Except.error "sentry: hub is nil", [], false⟩
    | some _ =>
        let st := classifyAttrs s record
        let scope := scopeFor st
        let evs := (dispatch record.level record.message st.err).map
          (fun sub => ⟨scope, sub⟩)
        ⟨ops.handle s.inner record, evs, true⟩
  else
    ⟨ops.handle s.inner record, [], true⟩

/-- SentryHandler.WithAttrs (handler.go lines 141-146): wrap the inner
sink's own WithAttrs derivation, keep the level list, and set
storedAttrs to exactly the given attributes. -/
def SentryHandler.WithAttrs {σ : Type} (ops : SinkOps σ)
    (s : SentryHandler σ) (attrs : List Attr) : SentryHandler σ :=
  { NewSentryHandler (ops.withAttrs s.inner attrs) s.levels with
      storedAttrs := attrs }

/-- SentryHandler.WithGroup (handler.go lines 149-151): wrap the inner
sink's own WithGroup derivation, keep the level list, stored attributes
reset to empty. -/
def SentryHandler.WithGroup {σ : Type} (ops : SinkOps σ)
    (s : SentryHandler σ) (name : String) : SentryHandler σ :=
  NewSentryHandler (ops.withGroup s.inner name) s.levels

/-- A concrete inner sink whose Handle always succeeds; used to
instantiate witnesses and counterexamples. -/
def okSink : SinkOps Unit :=
  ⟨fun _ _ => Except.ok (), fun _ _ => true, fun s _ => s, fun s _ => s⟩

/-! ## Helper lemmas -/

lemma mapGet_mapSet (m : List (String × String)) (k v : String) :
    mapGet (mapSet m k v) k = some v := by
  induction m with
  | nil => simp [mapSet, mapGet]
  | cons p m ih =>
      by_cases h : p.1 = k
      · simp [mapSet, mapGet, h]
      · simp [mapSet, mapGet, h, ih]

lemma handleAttr_tag (st : ClassState) (a : Attr)
    (h : strHasPfx a.key tagAttrPfx = true) :
    handleAttr st a = { st with tags := mapSet st.tags a.key a.value.render } := by
  simp [handleAttr, h]

lemma strHasPfx_errKey_false (k : String)
    (hkey : k = shortErrKey ∨ k = longErrKey) :
    strHasPfx k tagAttrPfx = false := by
  rcases hkey with h | h <;> rw [h] <;> decide

lemma mem_defaultKeys_of_errKey (k : String)
    (hkey : k = shortErrKey ∨ k = longErrKey) :
    k ∈ slogDefaultKeys := by
  rcases hkey with h | h <;> rw [h] <;> decide

lemma handleAttr_errKey_some (st : ClassState) (a : Attr) (g : GoError)
    (hkey : a.key = shortErrKey ∨ a.key = longErrKey)
    (he : a.value.asError = some g) :
    handleAttr st a = { st with err := some g } := by
  have h1 := strHasPfx_errKey_false a.key hkey
  have h2 := mem_defaultKeys_of_errKey a.key hkey
  simp [handleAttr, h1, h2, hkey, he]

lemma handleAttr_errKey_none (st : ClassState) (a : Attr)
    (hkey : a.key = shortErrKey ∨ a.key = longErrKey)
    (he : a.value.asError = none) :
    handleAttr st a =
      { st with
          err := none
          slogContext := mapSet st.slogContext a.key a.value.render } := by
  have h1 := strHasPfx_errKey_false a.key hkey
  have h2 := mem_defaultKeys_of_errKey a.key hkey
  simp [handleAttr, h1, h2, hkey, he]

lemma handleAttr_errKey_err (st : ClassState) (a : Attr)
    (hkey : a.key = shortErrKey ∨ a.key = longErrKey) :
    (handleAttr st a).err = a.value.asError := by
  cases he : a.value.asError with
  | none => rw [handleAttr_errKey_none st a hkey he]
  | some g => rw [handleAttr_errKey_some st a g hkey he]

lemma handleAttr_err_of_ne (st : ClassState) (a : Attr)
    (h1 : a.key ≠ shortErrKey) (h2 : a.key ≠ longErrKey) :
    (handleAttr st a).err = st.err := by
  unfold handleAttr
  split
  · rfl
  · split
    · rfl
    · split
      · rename_i hor
        exact absurd hor (by simp [h1, h2])
      · rfl

/-- Is this attribute under one of the two reserved error keys?  These
are exactly the attributes whose classification can touch the err
variable. -/
def isErrKeyAttr (a : Attr) : Bool :=
  a.key == shortErrKey || a.key == longErrKey

/-- The last attribute of the list that is under a reserved error key,
if any. -/
def lastErrKeyAttr : List Attr → Option Attr
  | [] => none
  | a :: l =>
      match lastErrKeyAttr l with
      | some b => some b
      | none => if isErrKeyAttr a then some a else none

lemma foldl_handleAttr_err (l : List Attr) (st : ClassState) :
    (List.foldl handleAttr st l).err =
      (match lastErrKeyAttr l with
       | none => st.err
       | some a => a.value.asError) := by
  induction l generalizing st with
  | nil => rfl
  | cons a l ih =>
      rw [List.foldl_cons, ih]
      cases hl : lastErrKeyAttr l with
      | some b => simp [lastErrKeyAttr, hl]
      | none =>
          by_cases hk : isErrKeyAttr a = true
          · have hor : a.key = shortErrKey ∨ a.key = longErrKey := by
              simpa [isErrKeyAttr] using hk
            simp [lastErrKeyAttr, hl, hk,
              handleAttr_errKey_err st a hor]
          · have hor : a.key ≠ shortErrKey ∧ a.key ≠ longErrKey := by
              simpa [isErrKeyAttr] using hk
            simp [lastErrKeyAttr, hl, hk,
              handleAttr_err_of_ne st a hor.1 hor.2]

lemma handle_forwarded {σ : Type} (ops : SinkOps σ) (s : SentryHandler σ)
    (ch cu : Option Nat) (r : Record) (n : Nat)
    (hmem : r.level ∈ s.levels) (hhub : resolveHub ch cu = some n) :
    SentryHandler.Handle ops s ch cu r =
      ⟨ops.handle s.inner r,
        (dispatch r.level r.message (classifyAttrs s r).err).map
          (fun sub => ⟨scopeFor (classifyAttrs s r), sub⟩),
        true⟩ := by
  simp [SentryHandler.Handle, hmem, hhub]

lemma handle_no_hub {σ : Type} (ops : SinkOps σ) (s : SentryHandler σ)
    (ch cu : Option Nat) (r : Record)
    (hmem : r.level ∈ s.levels) (hhub : resolveHub ch cu = none) :
    SentryHandler.Handle ops s ch cu r =
      ⟨Except.error "sentry: hub is nil", [], false⟩ := by
  simp [SentryHandler.Handle, hmem, hhub]

lemma handle_not_forwarded {σ : Type} (ops : SinkOps σ)
    (s : SentryHandler σ) (ch cu : Option Nat) (r : Record)
    (hmem : r.level ∉ s.levels) :
    SentryHandler.Handle ops s ch cu r =
      ⟨ops.handle s.inner r, [], true⟩ := by
  simp [SentryHandler.Handle, hmem]

/-! ## Claim theorems -/

/-- C6: for a SlogError with both message and wrapped error set, Error()
returns "message: wrapped error text"; with only a message it returns
the message; with only a wrapped error it returns the wrapped error's
text; and Unwrap() returns the wrapped error unchanged. -/
theorem slog_error_composition (m : String) (w : GoError)
    (hm : 0 < m.length) :
    (GoError.slogError m (some w)).errorString = m ++ ": " ++ w.errorString
    ∧ (GoError.slogError m none).errorString = m
    ∧ (GoError.slogError "" (some w)).errorString = w.errorString
    ∧ (GoError.slogError m (some w)).unwrap = some w
    ∧ (GoError.slogError m none).unwrap = none := by
  refine ⟨?_, rfl, ?_, rfl, rfl⟩
  · simp [GoError.errorString, hm, String.append_assoc]
  · simp [GoError.errorString]

/-- Witness for C6 at the repository's own test vector: message
"the message" wrapped around the error "the error". -/
theorem slog_error_composition_witness :
    (GoError.slogError "the message" (some (GoError.base "the error"))).errorString =
      "the message" ++ ": " ++ (GoError.base "the error").errorString
    ∧ (GoError.slogError "the message" none).errorString = "the message"
    ∧ (GoError.slogError "" (some (GoError.base "the error"))).errorString =
        (GoError.base "the error").errorString
    ∧ (GoError.slogError "the message" (some (GoError.base "the error"))).unwrap =
        some (GoError.base "the error")
    ∧ (GoError.slogError "the message" none).unwrap = none :=
  slog_error_composition "the message" (GoError.base "the error") (by decide)

/-- C2: an attribute whose key starts with the tag marker "tag_" has its
string rendering stored in the tag map under that key (marker retained),
never in the context map, and leaves the carried error alone; this rule
applies before every other classification rule (no other condition on
the key is consulted). -/
theorem tag_attr_classified_first (st : ClassState) (a : Attr)
    (h : strHasPfx a.key tagAttrPfx = true) :
    handleAttr st a = { st with tags := mapSet st.tags a.key a.value.render }
    ∧ mapGet (handleAttr st a).tags a.key = some a.value.render
    ∧ (handleAttr st a).slogContext = st.slogContext
    ∧ (handleAttr st a).err = st.err := by
  have hq := handleAttr_tag st a h
  refine ⟨hq, ?_, by rw [hq], by rw [hq]⟩
  rw [hq]
  exact mapGet_mapSet st.tags a.key a.value.render

/-- Witness for C2 at the concrete tag attribute tag_env = "prod". -/
theorem tag_attr_classified_first_witness :
    handleAttr initClassState ⟨"tag_env", SlogValue.str "prod"⟩ =
      { initClassState with
          tags := mapSet initClassState.tags "tag_env"
            (SlogValue.str "prod").render }
    ∧ mapGet (handleAttr initClassState
        ⟨"tag_env", SlogValue.str "prod"⟩).tags "tag_env" =
        some (SlogValue.str "prod").render
    ∧ (handleAttr initClassState
        ⟨"tag_env", SlogValue.str "prod"⟩).slogContext =
        initClassState.slogContext
    ∧ (handleAttr initClassState ⟨"tag_env", SlogValue.str "prod"⟩).err =
        initClassState.err :=
  tag_attr_classified_first initClassState ⟨"tag_env", SlogValue.str "prod"⟩
    (by decide)

/-- C9: an attribute under one of the other reserved default keys (time,
level, source, msg) is ignored entirely: the classification state is
unchanged, so it lands in neither map and never becomes the carried
error. -/
theorem other_default_keys_ignored (st : ClassState) (a : Attr)
    (h : a.key = timeKey ∨ a.key = levelKey ∨ a.key = sourceKey ∨
      a.key = messageKey) :
    handleAttr st a = st := by
  have h1 : strHasPfx a.key tagAttrPfx = false := by
    rcases h with h | h | h | h <;> rw [h] <;> decide
  have h2 : a.key ∈ slogDefaultKeys := by
    rcases h with h | h | h | h <;> rw [h] <;> decide
  have h3 : ¬(a.key = shortErrKey ∨ a.key = longErrKey) := by
    rcases h with h | h | h | h <;> rw [h] <;> decide
  simp [handleAttr, h1, h2, h3]

/-- Witness for C9: a "level" attribute leaves the state unchanged. -/
theorem other_default_keys_ignored_witness :
    handleAttr initClassState ⟨"level", SlogValue.str "ERROR"⟩ =
      initClassState :=
  other_default_keys_ignored initClassState ⟨"level", SlogValue.str "ERROR"⟩
    (by decide)

/-- C8: WithAttrs wraps the inner sink's own WithAttrs derivation, keeps
the level list, and sets storedAttrs to exactly the given sequence
(replacing, not merging with, any previous stored attributes); a
subsequent Handle classifies exactly those attributes followed by the
record's own attributes. -/
theorem withAttrs_replaces_stored {σ : Type} (ops : SinkOps σ)
    (s : SentryHandler σ) (attrs : List Attr) (r : Record) :
    (SentryHandler.WithAttrs ops s attrs).inner = ops.withAttrs s.inner attrs
    ∧ (SentryHandler.WithAttrs ops s attrs).levels = s.levels
    ∧ (SentryHandler.WithAttrs ops s attrs).storedAttrs = attrs
    ∧ classifyAttrs (SentryHandler.WithAttrs ops s attrs) r =
        List.foldl handleAttr initClassState (attrs ++ r.attrs) := by
  refine ⟨rfl, rfl, rfl, ?_⟩
  simp [classifyAttrs, SentryHandler.WithAttrs, NewSentryHandler,
    List.foldl_append]

/-- C7: a record whose level is not in the forwarding level list is not
forwarded at all: no remote event, no hub lookup needed, and Handle is
exactly the inner sink's result (delegation happened).  An empty level
list satisfies the hypothesis for every record. -/
theorem not_forwarded_delegates {σ : Type} (ops : SinkOps σ)
    (s : SentryHandler σ) (ch cu : Option Nat) (r : Record)
    (hmem : r.level ∉ s.levels) :
    SentryHandler.Handle ops s ch cu r = ⟨ops.handle s.inner r, [], true⟩ :=
  handle_not_forwarded ops s ch cu r hmem

/-- Witness for C7 with an empty level list (nothing is forwarded) and
no hub anywhere: Handle is still the inner result. -/
theorem not_forwarded_delegates_witness :
    SentryHandler.Handle okSink ⟨(), [], []⟩ none none
      ⟨LevelError, "m", [⟨"error", SlogValue.verr (GoError.base "A")⟩]⟩ =
      ⟨okSink.handle ()
        ⟨LevelError, "m", [⟨"error", SlogValue.verr (GoError.base "A")⟩]⟩,
        [], true⟩ :=
  not_forwarded_delegates okSink ⟨(), [], []⟩ none none
    ⟨LevelError, "m", [⟨"error", SlogValue.verr (GoError.base "A")⟩]⟩
    (by decide)

/-- Handler and record exhibiting that the latest error-typed value does
not always survive: two error-typed attributes under reserved error keys
are followed by a non-error-typed one under an error key. -/
def hC3 : SentryHandler Unit := ⟨(), [LevelError], []⟩

def recC3 : Record :=
  ⟨LevelError, "m",
    [⟨"err", SlogValue.verr (GoError.base "A")⟩,
     ⟨"error", SlogValue.verr (GoError.base "B")⟩,
     ⟨"error", SlogValue.str "x"⟩]⟩

/-- C3 counterexample: in recC3 several attributes under the reserved
error keys hold error-typed values (base "A" and base "B"); the latest
of them in scan order is base "B", yet the carried error at the end of
classification is none (the trailing non-error-typed "error" attribute
reset it), and the submitted exception wraps no error at all. -/
theorem carried_error_counterexample :
    (classifyAttrs hC3 recC3).err = none
    ∧ (classifyAttrs hC3 recC3).err ≠ some (GoError.base "B")
    ∧ (SentryHandler.Handle okSink hC3 none (some 0) recC3).events =
        [⟨⟨[("slog", [("error", "x")])], []⟩,
          Submission.exception (GoError.slogError "m" none)⟩] := by
  refine ⟨rfl, ?_, rfl⟩
  intro h
  rw [show (classifyAttrs hC3 recC3).err = none from rfl] at h
  exact Option.noConfusion h

/-- C3 amended: at most one carried error survives per Handle call, and
it is determined by the LAST attribute under a reserved error key in
scan order (stored attributes first, then record attributes in order):
if that last attribute's value is error-typed it is the carried error,
otherwise no carried error survives.  In particular, when a stored
attribute and a later record attribute both carry error-typed values
under an error key, the record attribute's error wins. -/
theorem carried_error_from_last_errKey {σ : Type} (s : SentryHandler σ)
    (r : Record) :
    ((classifyAttrs s r).err =
      (match lastErrKeyAttr (s.storedAttrs ++ r.attrs) with
       | none => none
       | some a => a.value.asError))
    ∧ (∀ (k : String) (g1 g2 : GoError),
        k = shortErrKey ∨ k = longErrKey →
        (classifyAttrs (σ := σ) ⟨s.inner, s.levels, [⟨k, SlogValue.verr g1⟩]⟩
          ⟨r.level, r.message, [⟨k, SlogValue.verr g2⟩]⟩).err = some g2) := by
  constructor
  · have hq : classifyAttrs s r =
        List.foldl handleAttr initClassState (s.storedAttrs ++ r.attrs) := by
      simp [classifyAttrs, List.foldl_append]
    rw [hq, foldl_handleAttr_err]
    cases lastErrKeyAttr (s.storedAttrs ++ r.attrs) <;> rfl
  · intro k g1 g2 hk
    have hfold : classifyAttrs (σ := σ)
        ⟨s.inner, s.levels, [⟨k, SlogValue.verr g1⟩]⟩
        ⟨r.level, r.message, [⟨k, SlogValue.verr g2⟩]⟩ =
        List.foldl handleAttr initClassState
          [⟨k, SlogValue.verr g1⟩, ⟨k, SlogValue.verr g2⟩] := by
      simp [classifyAttrs]
    rw [hfold, foldl_handleAttr_err]
    have hek : isErrKeyAttr ⟨k, SlogValue.verr g2⟩ = true := by
      rcases hk with h | h <;> simp [isErrKeyAttr, h]
    simp [lastErrKeyAttr, hek, SlogValue.asError]

/-- Witness for C3 (amended): a stored error-typed "err" attribute is
overridden by the record's own error-typed "err" attribute. -/
theorem carried_error_from_last_errKey_witness :
    (classifyAttrs (σ := Unit)
      ⟨(), [LevelError], [⟨"err", SlogValue.verr (GoError.base "stored")⟩]⟩
      ⟨LevelError, "m", [⟨"err", SlogValue.verr (GoError.base "rec")⟩]⟩).err =
      some (GoError.base "rec") :=
  (carried_error_from_last_errKey (σ := Unit) ⟨(), [LevelError], []⟩
    ⟨LevelError, "m", []⟩).2 "err" (GoError.base "stored")
    (GoError.base "rec") (Or.inl rfl)

/-- C5: for a forwarded record (level in the list, hub resolved), the
remote submission is dispatched by severity: at Error level one
exception SlogError{msg: record message, err: carried error} is
submitted in the scope built from the classification; at Debug, Info or
Warn level one plain message equal to the record message is submitted
(the carried error is not attached); at any other level no submission
occurs and Handle still returns the inner sink's result. -/
theorem dispatch_by_severity {σ : Type} (ops : SinkOps σ)
    (s : SentryHandler σ) (ch cu : Option Nat) (r : Record) (n : Nat)
    (hmem : r.level ∈ s.levels) (hhub : resolveHub ch cu = some n) :
    (r.level = LevelError →
       (SentryHandler.Handle ops s ch cu r).events =
         [⟨scopeFor (classifyAttrs s r),
           Submission.exception
             (GoError.slogError r.message (classifyAttrs s r).err)⟩])
    ∧ (r.level = LevelDebug ∨ r.level = LevelInfo ∨ r.level = LevelWarn →
       (SentryHandler.Handle ops s ch cu r).events =
         [⟨scopeFor (classifyAttrs s r), Submission.message r.message⟩])
    ∧ (r.level ≠ LevelError → r.level ≠ LevelDebug → r.level ≠ LevelInfo →
       r.level ≠ LevelWarn →
       (SentryHandler.Handle ops s ch cu r).events = []
       ∧ (SentryHandler.Handle ops s ch cu r).result =
           ops.handle s.inner r) := by
  rw [handle_forwarded ops s ch cu r n hmem hhub]
  refine ⟨?_, ?_, ?_⟩
  · intro h
    simp [dispatch, h]
  · intro h
    rcases h with h | h | h <;>
      simp [dispatch, h, LevelDebug, LevelInfo, LevelWarn, LevelError]
  · intro h1 h2 h3 h4
    simp [dispatch, h1, h2, h3, h4]

/-- Witness for C5: an Error-level record submits exactly one exception
composed from the record message and the carried error, here the error
value of the "err" attribute. -/
theorem dispatch_by_severity_witness :
    (SentryHandler.Handle okSink ⟨(), [LevelError], []⟩ none (some 0)
      ⟨LevelError, "boom", [⟨"err", SlogValue.verr (GoError.base "E")⟩]⟩).events =
      [⟨scopeFor (classifyAttrs (σ := Unit) ⟨(), [LevelError], []⟩
          ⟨LevelError, "boom", [⟨"err", SlogValue.verr (GoError.base "E")⟩]⟩),
        Submission.exception (GoError.slogError "boom"
          (classifyAttrs (σ := Unit) ⟨(), [LevelError], []⟩
            ⟨LevelError, "boom",
              [⟨"err", SlogValue.verr (GoError.base "E")⟩]⟩).err)⟩]
    ∧ (SentryHandler.Handle okSink ⟨(), [LevelError], []⟩ none (some 0)
      ⟨LevelError, "boom", [⟨"err", SlogValue.verr (GoError.base "E")⟩]⟩).events =
      [⟨⟨[], []⟩, Submission.exception
          (GoError.slogError "boom" (some (GoError.base "E")))⟩] :=
  ⟨(dispatch_by_severity okSink ⟨(), [LevelError], []⟩ none (some 0)
      ⟨LevelError, "boom", [⟨"err", SlogValue.verr (GoError.base "E")⟩]⟩ 0
      (by decide) rfl).1 rfl,
   rfl⟩

/-- C10: a non-error-typed value under a reserved error key resets the
carried error extracted earlier in the scan to nil: when the combined
scan (stored attributes then record attributes) ends with such an
attribute after an earlier error-typed extraction, classification ends
with no carried error, the late attribute's string rendering lands in
the context map, and the Error-level exception is built from the record
message alone. -/
theorem carried_error_reset {σ : Type} (ops : SinkOps σ)
    (s : SentryHandler σ) (ch cu : Option Nat) (r : Record) (n : Nat)
    (pre : List Attr) (g : GoError) (a : Attr)
    (hattrs : s.storedAttrs ++ r.attrs = pre ++ [a])
    (hprev : (List.foldl handleAttr initClassState pre).err = some g)
    (hkey : a.key = shortErrKey ∨ a.key = longErrKey)
    (hne : a.value.asError = none)
    (hlev : r.level = LevelError)
    (hmem : r.level ∈ s.levels)
    (hhub : resolveHub ch cu = some n) :
    (classifyAttrs s r).err = none
    ∧ mapGet (classifyAttrs s r).slogContext a.key = some a.value.render
    ∧ (SentryHandler.Handle ops s ch cu r).events =
        [⟨scopeFor (classifyAttrs s r),
          Submission.exception (GoError.slogError r.message none)⟩] := by
  have hsplit : classifyAttrs s r =
      handleAttr (List.foldl handleAttr initClassState pre) a := by
    rw [classifyAttrs, ← List.foldl_append, hattrs, List.foldl_append,
      List.foldl_cons, List.foldl_nil]
  have hlast := handleAttr_errKey_none
    (List.foldl handleAttr initClassState pre) a hkey hne
  have herr : (classifyAttrs s r).err = none := by
    rw [hsplit, hlast]
  refine ⟨herr, ?_, ?_⟩
  · rw [hsplit, hlast]
    exact mapGet_mapSet _ a.key a.value.render
  · rw [handle_forwarded ops s ch cu r n hmem hhub, herr]
    simp [dispatch, hlev]

/-- Witness for C10: a stored error-typed "err" attribute is wiped out
by the record's trailing string-valued "error" attribute; the exception
wraps no error and the context holds "error" = "oops". -/
theorem carried_error_reset_witness :
    (classifyAttrs (σ := Unit)
      ⟨(), [LevelError], [⟨"err", SlogValue.verr (GoError.base "boom")⟩]⟩
      ⟨LevelError, "m", [⟨"error", SlogValue.str "oops"⟩]⟩).err = none
    ∧ mapGet (classifyAttrs (σ := Unit)
        ⟨(), [LevelError], [⟨"err", SlogValue.verr (GoError.base "boom")⟩]⟩
        ⟨LevelError, "m", [⟨"error", SlogValue.str "oops"⟩]⟩).slogContext
        "error" = some (SlogValue.str "oops").render
    ∧ (SentryHandler.Handle okSink
        ⟨(), [LevelError], [⟨"err", SlogValue.verr (GoError.base "boom")⟩]⟩
        none (some 0)
        ⟨LevelError, "m", [⟨"error", SlogValue.str "oops"⟩]⟩).events =
        [⟨scopeFor (classifyAttrs (σ := Unit)
            ⟨(), [LevelError], [⟨"err", SlogValue.verr (GoError.base "boom")⟩]⟩
            ⟨LevelError, "m", [⟨"error", SlogValue.str "oops"⟩]⟩),
          Submission.exception (GoError.slogError "m" none)⟩] :=
  carried_error_reset okSink
    ⟨(), [LevelError], [⟨"err", SlogValue.verr (GoError.base "boom")⟩]⟩
    none (some 0) ⟨LevelError, "m", [⟨"error", SlogValue.str "oops"⟩]⟩ 0
    [⟨"err", SlogValue.verr (GoError.base "boom")⟩] (GoError.base "boom")
    ⟨"error", SlogValue.str "oops"⟩ rfl rfl (Or.inr rfl) rfl rfl
    (by decide) rfl

/-- C4 counterexample: a forwarded Error-level record carrying the
attribute error = nil, in an environment where neither the context nor
the process-wide default yields a hub.  The inner sink succeeds on this
record, yet Handle returns the hub-is-nil error, not success, because
the hub check precedes classification and returns early. -/
theorem nonerror_attr_hub_counterexample :
    okSink.handle () ⟨LevelError, "m", [⟨"error", SlogValue.vnil⟩]⟩ =
      Except.ok ()
    ∧ (SentryHandler.Handle okSink ⟨(), [LevelError], []⟩ none none
        ⟨LevelError, "m", [⟨"error", SlogValue.vnil⟩]⟩).result =
        Except.error "sentry: hub is nil"
    ∧ (SentryHandler.Handle okSink ⟨(), [LevelError], []⟩ none none
        ⟨LevelError, "m", [⟨"error", SlogValue.vnil⟩]⟩).result ≠
        Except.ok () := by
  refine ⟨rfl, rfl, ?_⟩
  intro h
  rw [show (SentryHandler.Handle okSink ⟨(), [LevelError], []⟩ none none
      ⟨LevelError, "m", [⟨"error", SlogValue.vnil⟩]⟩).result =
      Except.error "sentry: hub is nil" from rfl] at h
  exact Except.noConfusion h

/-- C4 amended: provided a remote hub resolves (from the context or the
process-wide default), an attribute under a reserved error key whose
value is not error-typed (including nil) is handled without failure:
classification stores its string rendering in the context map under
that key, leaves the carried error unset, and Handle returns exactly
the inner sink's result, hence success whenever the inner sink
succeeds. -/
theorem nonerror_error_attr_safe {σ : Type} (ops : SinkOps σ)
    (s : SentryHandler σ) (ch cu : Option Nat) (n : Nat) (r : Record)
    (st : ClassState) (a : Attr)
    (hkey : a.key = shortErrKey ∨ a.key = longErrKey)
    (hne : a.value.asError = none)
    (hhub : resolveHub ch cu = some n) :
    handleAttr st a =
      { st with
          err := none
          slogContext := mapSet st.slogContext a.key a.value.render }
    ∧ mapGet (handleAttr st a).slogContext a.key = some a.value.render
    ∧ (SentryHandler.Handle ops s ch cu r).result = ops.handle s.inner r := by
  have hq := handleAttr_errKey_none st a hkey hne
  refine ⟨hq, ?_, ?_⟩
  · rw [hq]
    exact mapGet_mapSet st.slogContext a.key a.value.render
  · by_cases hmem : r.level ∈ s.levels
    · rw [handle_forwarded ops s ch cu r n hmem hhub]
    · rw [handle_not_forwarded ops s ch cu r hmem]

/-- Witness for C4 (amended), at the spec's own scenario: level list
{Error}, record attributes some_attr = "yes" and error = nil, a current
hub present; the context entry is "error" = "<nil>" and Handle returns
the inner sink's success. -/
theorem nonerror_error_attr_safe_witness :
    handleAttr initClassState ⟨"error", SlogValue.vnil⟩ =
      { initClassState with
          err := none
          slogContext := mapSet initClassState.slogContext "error"
            SlogValue.vnil.render }
    ∧ mapGet (handleAttr initClassState
        ⟨"error", SlogValue.vnil⟩).slogContext "error" =
        some SlogValue.vnil.render
    ∧ (SentryHandler.Handle okSink ⟨(), [LevelError], []⟩ none (some 0)
        ⟨LevelError, "the message",
          [⟨"some_attr", SlogValue.str "yes"⟩,
           ⟨"error", SlogValue.vnil⟩]⟩).result =
        okSink.handle ()
          ⟨LevelError, "the message",
            [⟨"some_attr", SlogValue.str "yes"⟩,
             ⟨"error", SlogValue.vnil⟩]⟩ :=
  nonerror_error_attr_safe okSink ⟨(), [LevelError], []⟩ none (some 0) 0
    ⟨LevelError, "the message",
      [⟨"some_attr", SlogValue.str "yes"⟩, ⟨"error", SlogValue.vnil⟩]⟩
    initClassState ⟨"error", SlogValue.vnil⟩ (Or.inr rfl) rfl rfl

/-- C1 counterexample: a forwarded record in an environment with no hub
in the context and no process-wide hub.  Handle returns the hub-is-nil
error — precisely the absent-hub failure the claim says is never
returned — the inner sink (which would succeed) is never invoked, and
the result differs from the inner sink's result. -/
theorem hub_nil_counterexample :
    (SentryHandler.Handle okSink ⟨(), [LevelError], []⟩ none none
      ⟨LevelError, "m", []⟩).result = Except.error "sentry: hub is nil"
    ∧ (SentryHandler.Handle okSink ⟨(), [LevelError], []⟩ none none
        ⟨LevelError, "m", []⟩).delegated = false
    ∧ okSink.handle () ⟨LevelError, "m", []⟩ = Except.ok ()
    ∧ (SentryHandler.Handle okSink ⟨(), [LevelError], []⟩ none none
        ⟨LevelError, "m", []⟩).result ≠
        okSink.handle () ⟨LevelError, "m", []⟩ := by
  refine ⟨rfl, rfl, rfl, ?_⟩
  intro h
  rw [show (SentryHandler.Handle okSink ⟨(), [LevelError], []⟩ none none
      ⟨LevelError, "m", []⟩).result =
      Except.error "sentry: hub is nil" from rfl] at h
  rw [show okSink.handle () ⟨LevelError, "m", []⟩ = Except.ok () from rfl] at h
  exact Except.noConfusion h

/-- C1 amended: for a record whose level is in the forwarding list,
Handle returns the inner sink's result whenever a remote hub resolves
from the context or the process-wide default; when neither yields a
hub, Handle instead returns the error "sentry: hub is nil" without
delegating to the inner sink at all. -/
theorem handle_hub_resolution {σ : Type} (ops : SinkOps σ)
    (s : SentryHandler σ) (ch cu : Option Nat) (r : Record)
    (hmem : r.level ∈ s.levels) :
    (resolveHub ch cu = none →
       SentryHandler.Handle ops s ch cu r =
         ⟨Except.error "sentry: hub is nil", [], false⟩)
    ∧ (∀ n : Nat, resolveHub ch cu = some n →
       (SentryHandler.Handle ops s ch cu r).result = ops.handle s.inner r
       ∧ (SentryHandler.Handle ops s ch cu r).delegated = true) := by
  constructor
  · intro h
    exact handle_no_hub ops s ch cu r hmem h
  · intro n h
    rw [handle_forwarded ops s ch cu r n hmem h]
    exact ⟨rfl, rfl⟩

/-- Witness for C1 (amended): with no hub anywhere the call returns the
hub-is-nil error without delegating; with a current hub present the
call returns the inner sink's result. -/
theorem handle_hub_resolution_witness :
    SentryHandler.Handle okSink ⟨(), [LevelError], []⟩ none none
      ⟨LevelError, "m", []⟩ =
      ⟨Except.error "sentry: hub is nil", [], false⟩
    ∧ (SentryHandler.Handle okSink ⟨(), [LevelError], []⟩ none (some 0)
        ⟨LevelError, "m", []⟩).result =
        okSink.handle () ⟨LevelError, "m", []⟩ :=
  ⟨(handle_hub_resolution okSink ⟨(), [LevelError], []⟩ none none
      ⟨LevelError, "m", []⟩ (by decide)).1 rfl,
   ((handle_hub_resolution okSink ⟨(), [LevelError], []⟩ none (some 0)
      ⟨LevelError, "m", []⟩ (by decide)).2 0 rfl).1⟩

end SlogSentry
